import Mathlib

/-!
Shallow embedding of `aws_billing_exporter.go` (package main of
cloudxo/aws_billing_exporter) and proofs about its collector.

Modelling conventions:
* Go maps (`map[int]*prometheus.Desc`, `map[int]string`, the `Total`
  map of a result bucket) are association lists; iteration order of a
  Go map is unspecified, so every property proved below is insensitive
  to the order chosen here (counts, membership, emptiness).
* `prometheus.Desc` keeps the fields the program sets: fully qualified
  name, help string and variable label names.
* Metric samples sent on the collect channel are `Sample` values; the
  order of events on the channel is recorded as a `List Event`, with
  explicit markers for the counter increment and the fetch attempt so
  that sequencing claims can be stated.
* `strconv.Atoi` and `strconv.ParseFloat` are modelled over `Int` and
  `Rat`: `Atoi` accepts an optional sign followed by one or more
  digits, within the 64-bit range; `parseFloat` accepts the decimal
  grammar sign? (digits [. digits?] | . digits) (e sign? digits)? with
  exact rational semantics.  Binary rounding, hex/Inf/NaN forms,
  underscores and the float range error are elided: no claim below
  depends on them.
* A Go runtime panic (index out of range on `ResultsByTime[0]`) is
  modelled as `none` in the `result` field of a scrape outcome.
-/

/-- Constant label values attached to every per-cost sample, mirroring
the two variable labels declared for the server metric descriptors. -/
def serverLabelNames : List String := ["type", "unit"]

/-- Namespace prefix of every exposed metric. -/
def namespaceName : String := "aws_billing"

/-- Model of prometheus.Desc restricted to the fields the program sets. -/
structure Desc where
  fqName : String
  help : String
  labelNames : List String
deriving DecidableEq, Repr

/-- Model of prometheus.BuildFQName: joins the nonempty components with
an underscore, returning the empty string when the name is empty. -/
def buildFQName (ns sub name : String) : String :=
  if name = "" then ""
  else String.intercalate "_"
    (((if ns = "" then [] else [ns]) ++ (if sub = "" then [] else [sub])) ++ [name])

/-- Model of newAwsBillingMetric: a descriptor in the server subsystem
with the two standard labels. -/
def newAwsBillingMetric (metricName : String) (docString : String) : Desc :=
  { fqName := buildFQName namespaceName "server" metricName
    help := docString
    labelNames := serverLabelNames }

/-- The catalog map prometheusMetrics (Go map from int to Desc, modelled
as an association list in key order). -/
def prometheusMetrics : List (Int × Desc) :=
  [ (1, newAwsBillingMetric "amortized_cost" "This cost metric reflects the effective cost of the upfront and monthly reservation fees spread across the billing period..")
  , (2, newAwsBillingMetric "blended_cost" "This cost metric reflects the average cost of usage across the consolidated billing family.")
  , (3, newAwsBillingMetric "net_amortized_cost" "This cost metric amortizes the upfront and monthly reservation fees while including discounts such as RI volume discounts.")
  , (4, newAwsBillingMetric "net_unblended_cost" "This cost metric reflects the cost after discounts.")
  , (5, newAwsBillingMetric "normalized_usage_amount" "Cost of amount of resource consumption like CPU.")
  , (6, newAwsBillingMetric "unblended_cost" "Unblended costs separate discounts into their own line items. This enables you to view the amount of each discount received.")
  , (7, newAwsBillingMetric "usage_quantity" "Usage of quantity like data in GB.") ]

/-- Descriptor awsBillingUp for the health gauge. -/
def awsBillingUp : Desc :=
  { fqName := buildFQName namespaceName "" "up"
    help := "Was the last scrape of aws billing successful."
    labelNames := [] }

/-- The AWSMetrics map from catalog id to AWS dimension name. -/
def AWSMetrics : List (Int × String) :=
  [ (1, "AmortizedCost")
  , (2, "BlendedCost")
  , (3, "NetAmortizedCost")
  , (4, "NetUnblendedCost")
  , (5, "NormalizedUsageAmount")
  , (6, "UnblendedCost")
  , (7, "UsageQuantity") ]

/-- Go map read AWSMetrics[field]: yields the zero value "" when the key
is absent. -/
def awsMetricsLookup (field : Int) : String :=
  (AWSMetrics.lookup field).getD ""

/-- Descriptor of the totalScrapes counter created in NewExporter
(namespace and name, no subsystem). -/
def totalScrapesDesc : Desc :=
  { fqName := buildFQName namespaceName "" "exporter_total_scrapes"
    help := "Current total aws cost and usage API scrapes."
    labelNames := [] }

/-- One cost line item of the external response: amount (decimal as
string) and unit. -/
structure CostItem where
  amount : String
  unit : String
deriving DecidableEq, Repr

/-- One result bucket: the Total map from AWS dimension name to cost
item, modelled as an association list. -/
structure ResultByTime where
  total : List (String × CostItem)
deriving DecidableEq, Repr

/-- Model of costexplorer.GetCostAndUsageOutput: the ordered bucket list. -/
structure GetCostAndUsageOutput where
  resultsByTime : List ResultByTime
deriving DecidableEq, Repr

/-- A metric sample sent on the collect channel: descriptor, gauge value
and the variable label values in declaration order. -/
structure Sample where
  desc : Desc
  value : Rat
  labelValues : List String
deriving DecidableEq, Repr

/-- Observable events of one collect invocation, in program order. -/
inductive Event where
  | incCounter : Event
  | fetchAttempt : Event
  | emit : Sample → Event
deriving DecidableEq, Repr

/-- Digits to value, most significant first. -/
def digitsVal (cs : List Char) : Nat :=
  cs.foldl (fun a c => a * 10 + (c.toNat - 48)) 0

/-- Optional leading sign of a numeric literal. -/
def splitSign : List Char → Int × List Char
  | '+' :: rest => (1, rest)
  | '-' :: rest => (-1, rest)
  | cs => (1, cs)

/-- Lower bound of a 64-bit int, the range strconv.Atoi enforces. -/
def int64Min : Int := -(2 ^ 63)

/-- Upper bound of a 64-bit int. -/
def int64Max : Int := 2 ^ 63 - 1

/-- Model of strconv.Atoi on a 64-bit platform: optional sign, then one
or more decimal digits and nothing else, within the int64 range; none
models a returned error. -/
def Atoi (s : String) : Option Int :=
  let p := splitSign s.toList
  if p.2 ≠ [] ∧ p.2.all Char.isDigit then
    let n : Int := p.1 * (digitsVal p.2 : Int)
    if int64Min ≤ n ∧ n ≤ int64Max then some n else none
  else none

/-- Mantissa of a decimal float literal: digits, optionally a dot and
more digits, with at least one digit overall. -/
def parseMantissa (cs : List Char) : Option Rat :=
  let ip := cs.takeWhile Char.isDigit
  match cs.dropWhile Char.isDigit with
  | [] => if ip = [] then none else some ((digitsVal ip : Rat))
  | '.' :: fp =>
      if fp.all Char.isDigit ∧ (ip ≠ [] ∨ fp ≠ []) then
        some ((digitsVal ip : Rat) + (digitsVal fp : Rat) / ((10 : Rat) ^ fp.length))
      else none
  | _ => none

/-- Exponent part after the e of a float literal: optional sign and one
or more digits. -/
def parseExp (cs : List Char) : Option Int :=
  let p := splitSign cs
  if p.2 ≠ [] ∧ p.2.all Char.isDigit then some (p.1 * (digitsVal p.2 : Int))
  else none

/-- Model of strconv.ParseFloat restricted to the decimal grammar, with
exact rational semantics; none models a returned error. -/
def parseFloat (s : String) : Option Rat :=
  let q := splitSign s.toList
  let mant := q.2.takeWhile (fun c => ¬(c = 'e' ∨ c = 'E'))
  match q.2.dropWhile (fun c => ¬(c = 'e' ∨ c = 'E')) with
  | [] => (parseMantissa mant).map (fun m => (q.1 : Rat) * m)
  | _ :: expPart =>
      match parseMantissa mant, parseExp expPart with
      | some m, some ex => some ((q.1 : Rat) * m * (10 : Rat) ^ ex)
      | _, _ => none

/-- Model of strings.Split with separator ",": splits at every comma,
keeping empty fields; the empty string gives one empty field.  This is
a structural implementation of the Go semantics. -/
def splitOnComma : List Char → List (List Char)
  | [] => [[]]
  | c :: rest =>
      let r := splitOnComma rest
      if c = ',' then [] :: r
      else
        match r with
        | [] => [[c]]
        | t :: rs => (c :: t) :: rs

/-- Comma split lifted to strings. -/
def goSplitComma (s : String) : List String :=
  (splitOnComma s.toList).map (fun cs => String.mk cs)

/-- Token list the construction paths iterate over: strings.Split on a
comma, guarded by the emptiness check both paths perform first. -/
def tokens (filter : String) : List String :=
  if filter.length = 0 then [] else goSplitComma filter

/-- The token loop of filterServerMetrics: parse every token with Atoi,
failing at the first invalid one with the Go error message. -/
def parseTokens : List String → Except String (List Int)
  | [] => .ok []
  | f :: rest =>
      match Atoi f with
      | none => .error ("invalid server metric field number: " ++ f)
      | some field =>
          match parseTokens rest with
          | .error e => .error e
          | .ok ns => .ok (field :: ns)

/-- The token loop of NewExporter: parse every token with Atoi and map
it through the AWSMetrics lookup (absent ids give ""), failing at the
first invalid token with the Go error message. -/
def selectNames : List String → Except String (List String)
  | [] => .ok []
  | f :: rest =>
      match Atoi f with
      | none => .error ("invalid server metric field number: " ++ f)
      | some field =>
          match selectNames rest with
          | .error e => .error e
          | .ok ns => .ok (awsMetricsLookup field :: ns)

/-- Model of filterServerMetrics: empty filter returns the empty
descriptor map; otherwise the tokens are parsed and the catalog is
restricted to the selected ids. -/
def filterServerMetrics (filter : String) : Except String (List (Int × Desc)) :=
  if filter.length = 0 then .ok []
  else
    match parseTokens (goSplitComma filter) with
    | .error e => .error e
    | .ok selected => .ok (prometheusMetrics.filter (fun p => selected.contains p.1))

/-- Collector state: the metric names captured by the fetch closure, the
totalScrapes counter value, and the enabled descriptor map passed in at
construction. -/
structure Exporter where
  fetchSelected : List String
  totalScrapes : Nat
  prometheusMetrics : List (Int × Desc)
deriving DecidableEq, Repr

/-- Model of NewExporter: empty filter selects every AWSMetrics name for
the fetch; otherwise each token is parsed (error on a non-integer) and
mapped through the AWSMetrics lookup.  The counter starts at zero. -/
def NewExporter (filter : String) (selectedServerMetrics : List (Int × Desc)) :
    Except String Exporter :=
  if filter.length = 0 then
    .ok { fetchSelected := AWSMetrics.map Prod.snd
          totalScrapes := 0
          prometheusMetrics := selectedServerMetrics }
  else
    match selectNames (goSplitComma filter) with
    | .error e => .error e
    | .ok names =>
        .ok { fetchSelected := names
              totalScrapes := 0
              prometheusMetrics := selectedServerMetrics }

/-- Samples produced by one enabled catalog entry scanning the bucket:
for each item whose dimension name equals the AWSMetrics name of the
entry and whose amount parses, one sample with labels (type, unit). -/
def innerFor (kd : Int × Desc) : List (String × CostItem) → List Sample
  | [] => []
  | kc :: rest =>
      (if kc.1 = awsMetricsLookup kd.1 then
        match parseFloat kc.2.amount with
        | some f => [{ desc := kd.2, value := f, labelValues := [kc.1, kc.2.unit] }]
        | none => []
      else []) ++ innerFor kd rest

/-- The nested emission loops of scrape over the first bucket. -/
def matchSamples (pm : List (Int × Desc)) (b0 : ResultByTime) : List Sample :=
  pm.flatMap (fun kd => innerFor kd b0.total)

/-- Outcome of one scrape: the events in channel order and the returned
up value, or none when the body panics (index out of range). -/
structure ScrapeOutcome where
  events : List Event
  result : Option Rat
deriving DecidableEq, Repr

/-- The health gauge sample emitted by Collect. -/
def upSample (up : Rat) : Sample :=
  { desc := awsBillingUp, value := up, labelValues := [] }

/-- The scrape counter sample emitted by Collect (current count). -/
def counterSample (n : Nat) : Sample :=
  { desc := totalScrapesDesc, value := (n : Rat), labelValues := [] }

/-- Model of Exporter.scrape, parameterized by the fetch result.  The
counter is incremented first; a fetch error returns up 0 with nothing
emitted; on success the nested loops emit the matching samples from the
first bucket.  When at least one metric is enabled and the bucket list
is empty, the access ResultsByTime[0] is out of range: result none. -/
def scrape (e : Exporter) (fr : Except String GetCostAndUsageOutput) :
    Exporter × ScrapeOutcome :=
  let e' := { e with totalScrapes := e.totalScrapes + 1 }
  match fr with
  | .error _ =>
      (e', { events := [.incCounter, .fetchAttempt], result := some 0 })
  | .ok response =>
      match e.prometheusMetrics, response.resultsByTime with
      | [], _ =>
          (e', { events := [.incCounter, .fetchAttempt], result := some 1 })
      | _ :: _, [] =>
          (e', { events := [.incCounter, .fetchAttempt], result := none })
      | kd :: pmrest, b0 :: _ =>
          (e', { events := [.incCounter, .fetchAttempt]
                   ++ (matchSamples (kd :: pmrest) b0).map .emit
                 result := some 1 })

/-- Model of Exporter.Collect, parameterized by the fetch result: runs
scrape, then emits the up gauge and the counter.  The boolean is true
when the invocation returns normally, false when the scrape panicked
(in which case only the events before the panic were sent). -/
def Collect (e : Exporter) (fr : Except String GetCostAndUsageOutput) :
    Exporter × List Event × Bool :=
  let p := scrape e fr
  match p.2.result with
  | none => (p.1, p.2.events, false)
  | some up =>
      (p.1, p.2.events ++ [.emit (upSample up), .emit (counterSample p.1.totalScrapes)], true)

/-- Per-cost samples among the events: every emission other than the up
gauge and the counter. -/
def costEmits (evs : List Event) : List Sample :=
  evs.filterMap (fun ev =>
    match ev with
    | .emit s => if s.desc = awsBillingUp ∨ s.desc = totalScrapesDesc then none else some s
    | _ => none)

/-- Model of the request costexplorer.GetCostAndUsageInput.  Dates are
day indices (the yyyy-mm-dd rendering is injective on dates and elided):
AddDate(0, 0, -1) is the previous day. -/
structure GetCostAndUsageInput where
  metrics : List String
  granularity : String
  timeStart : Int
  timeEnd : Int
deriving DecidableEq, Repr

/-- Model of one invocation of the closure returned by fetchHTTP,
parameterized by the current day and the external client.  It returns
the single request it issued together with the client result, which is
passed through unchanged (errors unmodified, a single call, no cache). -/
def fetchHTTP (metrics : List String) (today : Int)
    (client : GetCostAndUsageInput → Except String GetCostAndUsageOutput) :
    GetCostAndUsageInput × Except String GetCostAndUsageOutput :=
  let input : GetCostAndUsageInput :=
    { metrics := metrics
      granularity := "DAILY"
      timeStart := today - 1
      timeEnd := today }
  match client input with
  | .error e => (input, .error e)
  | .ok resp => (input, .ok resp)

/-- Concrete test bucket holding every one of the 7 AWS dimension
names with a parsable amount. -/
def fullBucket : ResultByTime :=
  { total := [ ("AmortizedCost", { amount := "1.0", unit := "USD" })
             , ("BlendedCost", { amount := "2.0", unit := "USD" })
             , ("NetAmortizedCost", { amount := "3.0", unit := "USD" })
             , ("NetUnblendedCost", { amount := "4.0", unit := "USD" })
             , ("NormalizedUsageAmount", { amount := "5.0", unit := "Count" })
             , ("UnblendedCost", { amount := "6.0", unit := "USD" })
             , ("UsageQuantity", { amount := "7.0", unit := "GB" }) ] }

/-- Catalog descriptor of id 2, used by concrete instances. -/
def blendedCostDesc : Desc :=
  newAwsBillingMetric "blended_cost" "This cost metric reflects the average cost of usage across the consolidated billing family."

/-- Catalog descriptor of id 1, used by concrete instances. -/
def amortizedCostDesc : Desc :=
  newAwsBillingMetric "amortized_cost" "This cost metric reflects the effective cost of the upfront and monthly reservation fees spread across the billing period.."

/-! Catalog facts and helper lemmas. -/

/-- The catalog keys 1..7 are distinct. -/
lemma prometheusMetrics_keys_nodup : (prometheusMetrics.map Prod.fst).Nodup := by decide

/-- The catalog entries are distinct. -/
lemma prometheusMetrics_nodup : prometheusMetrics.Nodup :=
  List.Nodup.of_map Prod.fst prometheusMetrics_keys_nodup

/-- Within the catalog, the descriptor determines the entry. -/
lemma catalog_snd_inj :
    ∀ p ∈ prometheusMetrics, ∀ q ∈ prometheusMetrics, p.2 = q.2 → p = q := by decide

/-- No catalog descriptor is the up gauge or the counter descriptor. -/
lemma catalog_desc_ne_special :
    ∀ p ∈ prometheusMetrics, p.2 ≠ awsBillingUp ∧ p.2 ≠ totalScrapesDesc := by decide

/-- The catalog and the AWSMetrics name map have the same key set. -/
lemma catalog_keys_eq_aws : prometheusMetrics.map Prod.fst = AWSMetrics.map Prod.fst := by decide

/-- A successful filterServerMetrics result is a sub-selection of the
catalog. -/
lemma filterServerMetrics_sublist {filter : String} {pm : List (Int × Desc)}
    (h : filterServerMetrics filter = .ok pm) :
    List.Sublist pm prometheusMetrics := by
  unfold filterServerMetrics at h
  split at h
  · cases h
    exact List.nil_sublist _
  · split at h
    · cases h
    · cases h
      exact List.filter_sublist _

/-- The Event.emit constructor is injective. -/
lemma emit_injective : Function.Injective Event.emit := by
  intro a b h
  cases h
  rfl

/-- In an association list with distinct keys, a key determines its
value. -/
lemma nodup_key_eq {α β : Type} [DecidableEq α] (l : List (α × β))
    (hl : (l.map Prod.fst).Nodup) {k : α} {v w : β}
    (hv : (k, v) ∈ l) (hw : (k, w) ∈ l) : v = w := by
  induction l with
  | nil => cases hv
  | cons p rest ih =>
      rw [List.map_cons, List.nodup_cons] at hl
      rcases List.mem_cons.mp hv with h1 | h1 <;> rcases List.mem_cons.mp hw with h2 | h2
      · rw [← h1] at h2
        exact (Prod.mk.injEq _ _ _ _ ▸ h2).2.symm
      · rw [← h1] at hl
        exact absurd (List.mem_map.mpr ⟨(k, w), h2, rfl⟩) hl.1
      · rw [← h2] at hl
        exact absurd (List.mem_map.mpr ⟨(k, v), h1, rfl⟩) hl.1
      · exact ih hl.2 h1 h2

/-- Characterization of membership in the inner emission loop. -/
lemma mem_innerFor {kd : Int × Desc} {total : List (String × CostItem)} {s : Sample} :
    s ∈ innerFor kd total ↔
      ∃ kc ∈ total, kc.1 = awsMetricsLookup kd.1 ∧
        ∃ f, parseFloat kc.2.amount = some f ∧
          s = { desc := kd.2, value := f, labelValues := [kc.1, kc.2.unit] } := by
  induction total with
  | nil => simp [innerFor]
  | cons kc rest ih =>
      rw [innerFor, List.mem_append, ih]
      constructor
      · rintro (hs | ⟨kc', h1, h2, f, h3, h4⟩)
        · by_cases h : kc.1 = awsMetricsLookup kd.1
          · rw [if_pos h] at hs
            rcases hpf : parseFloat kc.2.amount with _ | f
            · rw [hpf] at hs
              cases hs
            · rw [hpf] at hs
              exact ⟨kc, List.mem_cons_self kc rest, h, f, hpf, List.mem_singleton.mp hs⟩
          · rw [if_neg h] at hs
            cases hs
        · exact ⟨kc', List.mem_cons_of_mem kc h1, h2, f, h3, h4⟩
      · rintro ⟨kc', hmem, h2, f, h3, h4⟩
        rcases List.mem_cons.mp hmem with h1 | h1
        · left
          rw [← h1, if_pos h2, h3]
          exact List.mem_singleton.mpr h4
        · right
          exact ⟨kc', h1, h2, f, h3, h4⟩

/-- Every sample of the inner loop carries the descriptor of its
catalog entry. -/
lemma desc_of_mem_innerFor {kd : Int × Desc} {total : List (String × CostItem)} {s : Sample}
    (hs : s ∈ innerFor kd total) : s.desc = kd.2 := by
  rcases mem_innerFor.mp hs with ⟨kc, _, _, f, _, rfl⟩
  rfl

/-- The inner loop emits exactly one sample for a matching item with a
parsable amount, when the bucket keys are distinct. -/
lemma count_innerFor_eq_one {kd : Int × Desc} {total : List (String × CostItem)}
    (hnd : (total.map Prod.fst).Nodup)
    {item : CostItem} (hitem : (awsMetricsLookup kd.1, item) ∈ total)
    {f : Rat} (hf : parseFloat item.amount = some f) :
    (innerFor kd total).count
      { desc := kd.2, value := f, labelValues := [awsMetricsLookup kd.1, item.unit] } = 1 := by
  induction total with
  | nil => cases hitem
  | cons kc rest ih =>
      rw [List.map_cons, List.nodup_cons] at hnd
      rw [innerFor, List.count_append]
      rcases List.mem_cons.mp hitem with h1 | h1
      · rw [← h1] at hnd ⊢
        rw [if_pos rfl, hf]
        have hzero : (innerFor kd rest).count
            { desc := kd.2, value := f, labelValues := [awsMetricsLookup kd.1, item.unit] } = 0 := by
          rw [List.count_eq_zero]
          intro hmem
          rcases mem_innerFor.mp hmem with ⟨kc', hkc', hkey, f', _, heq⟩
          have : awsMetricsLookup kd.1 ∈ rest.map Prod.fst := by
            rcases Sample.mk.injEq .. ▸ heq with ⟨_, _, hlab⟩
            have : kc'.1 = awsMetricsLookup kd.1 := hkey
            exact List.mem_map.mpr ⟨kc', hkc', this⟩
          exact absurd this hnd.1
        rw [hzero]
        simp
      · have hne : ¬ kc.1 = awsMetricsLookup kd.1 := by
          intro h
          rw [h] at hnd
          exact hnd.1 (List.mem_map.mpr ⟨(awsMetricsLookup kd.1, item), h1, rfl⟩)
        rw [if_neg hne]
        rw [ih hnd.2 h1]
        simp

/-- The inner loop of an entry with a different descriptor never emits
the given sample. -/
lemma count_innerFor_ne_desc {kd : Int × Desc} {total : List (String × CostItem)}
    {s : Sample} (h : s.desc ≠ kd.2) : (innerFor kd total).count s = 0 := by
  rw [List.count_eq_zero]
  intro hs
  exact h (desc_of_mem_innerFor hs)

/-- Membership in the nested emission loops. -/
lemma mem_matchSamples {pm : List (Int × Desc)} {b0 : ResultByTime} {s : Sample} :
    s ∈ matchSamples pm b0 ↔ ∃ kd ∈ pm, s ∈ innerFor kd b0.total := by
  unfold matchSamples
  exact List.mem_flatMap

/-- With an enabled selection drawn from the catalog and distinct bucket
keys, the nested loops emit the sample of a matching parsable item
exactly once. -/
lemma count_matchSamples_eq_one
    {pm : List (Int × Desc)} (hsub : List.Sublist pm prometheusMetrics)
    {b0 : ResultByTime} (hnd : (b0.total.map Prod.fst).Nodup)
    {key : Int} {d : Desc} (hk : (key, d) ∈ pm)
    {item : CostItem} (hitem : (awsMetricsLookup key, item) ∈ b0.total)
    {f : Rat} (hf : parseFloat item.amount = some f) :
    (matchSamples pm b0).count
      { desc := d, value := f, labelValues := [awsMetricsLookup key, item.unit] } = 1 := by
  induction pm with
  | nil => cases hk
  | cons kd rest ih =>
      have hnodup_pm : (kd :: rest).Nodup := hsub.nodup prometheusMetrics_nodup
      have hrest_sub : List.Sublist rest prometheusMetrics := List.sublist_of_cons_sublist hsub
      rw [List.nodup_cons] at hnodup_pm
      unfold matchSamples
      rw [List.flatMap_cons, List.count_append]
      rcases List.mem_cons.mp hk with h1 | h1
      · rw [← h1]
        have hone := @count_innerFor_eq_one (key, d) b0.total hnd item hitem f hf
        have hzero : (matchSamples rest b0).count
            { desc := d, value := f, labelValues := [awsMetricsLookup key, item.unit] } = 0 := by
          rw [List.count_eq_zero]
          intro hmem
          rcases mem_matchSamples.mp hmem with ⟨kd', hkd', hsi⟩
          have hdesc : d = kd'.2 := by
            have := desc_of_mem_innerFor hsi
            exact this.symm ▸ rfl
          have hkd'_cat : kd' ∈ prometheusMetrics := hrest_sub.subset hkd'
          have hkd_cat : (key, d) ∈ prometheusMetrics := hsub.subset hk
          have : (key, d) = kd' := catalog_snd_inj (key, d) hkd_cat kd' hkd'_cat hdesc
          rw [← h1] at hnodup_pm
          rw [← this] at hkd'
          exact hnodup_pm.1 hkd'
        unfold matchSamples at hzero
        rw [hzero, hone]
      · have hkd_cat : kd ∈ prometheusMetrics := hsub.subset (List.mem_cons_self kd rest)
        have hkeyd_cat : (key, d) ∈ prometheusMetrics := hrest_sub.subset h1
        have hne : d ≠ kd.2 := by
          intro h
          have : (key, d) = kd := catalog_snd_inj (key, d) hkeyd_cat kd hkd_cat h
          rw [← this] at hnodup_pm
          exact hnodup_pm.1 h1
        rw [count_innerFor_ne_desc hne]
        have := ih hrest_sub h1
        unfold matchSamples at this
        rw [this]

/-- Unfolding scrape on a failed fetch. -/
lemma scrape_error (e : Exporter) (err : String) :
    scrape e (.error err) =
      ({ e with totalScrapes := e.totalScrapes + 1 },
       { events := [.incCounter, .fetchAttempt], result := some 0 }) := rfl

/-- Unfolding scrape on a successful fetch with no enabled metric. -/
lemma scrape_ok_nil_pm (e : Exporter) (resp : GetCostAndUsageOutput)
    (hpm : e.prometheusMetrics = []) :
    scrape e (.ok resp) =
      ({ e with totalScrapes := e.totalScrapes + 1 },
       { events := [.incCounter, .fetchAttempt], result := some 1 }) := by
  obtain ⟨fsel, n, pmf⟩ := e
  obtain ⟨buckets⟩ := resp
  have h1 : pmf = [] := hpm
  subst h1
  rfl

/-- Unfolding scrape on a successful fetch with an enabled metric and an
empty bucket list: the first-bucket access panics. -/
lemma scrape_ok_panic (e : Exporter) (resp : GetCostAndUsageOutput)
    (kd : Int × Desc) (pmrest : List (Int × Desc))
    (hpm : e.prometheusMetrics = kd :: pmrest) (hb : resp.resultsByTime = []) :
    scrape e (.ok resp) =
      ({ e with totalScrapes := e.totalScrapes + 1 },
       { events := [.incCounter, .fetchAttempt], result := none }) := by
  obtain ⟨fsel, n, pmf⟩ := e
  obtain ⟨buckets⟩ := resp
  have h1 : pmf = kd :: pmrest := hpm
  have h2 : buckets = [] := hb
  subst h1
  subst h2
  rfl

/-- Unfolding scrape on a successful fetch with an enabled metric and at
least one bucket. -/
lemma scrape_ok_cons (e : Exporter) (resp : GetCostAndUsageOutput)
    (kd : Int × Desc) (pmrest : List (Int × Desc)) (b0 : ResultByTime) (bs : List ResultByTime)
    (hpm : e.prometheusMetrics = kd :: pmrest) (hb : resp.resultsByTime = b0 :: bs) :
    scrape e (.ok resp) =
      ({ e with totalScrapes := e.totalScrapes + 1 },
       { events := [.incCounter, .fetchAttempt]
           ++ (matchSamples (kd :: pmrest) b0).map .emit
         result := some 1 }) := by
  obtain ⟨fsel, n, pmf⟩ := e
  obtain ⟨buckets⟩ := resp
  have h1 : pmf = kd :: pmrest := hpm
  have h2 : buckets = b0 :: bs := hb
  subst h1
  subst h2
  rfl

/-- Unfolding Collect on a failed fetch. -/
lemma Collect_error (e : Exporter) (err : String) :
    Collect e (.error err) =
      ({ e with totalScrapes := e.totalScrapes + 1 },
       [Event.incCounter, Event.fetchAttempt,
        Event.emit (upSample 0), Event.emit (counterSample (e.totalScrapes + 1))],
       true) := rfl

/-- Unfolding Collect on a successful fetch with an enabled metric and
at least one bucket. -/
lemma Collect_ok_cons (e : Exporter) (resp : GetCostAndUsageOutput)
    (kd : Int × Desc) (pmrest : List (Int × Desc)) (b0 : ResultByTime) (bs : List ResultByTime)
    (hpm : e.prometheusMetrics = kd :: pmrest) (hb : resp.resultsByTime = b0 :: bs) :
    Collect e (.ok resp) =
      ({ e with totalScrapes := e.totalScrapes + 1 },
       [Event.incCounter, Event.fetchAttempt]
         ++ (matchSamples (kd :: pmrest) b0).map Event.emit
         ++ [Event.emit (upSample 1), Event.emit (counterSample (e.totalScrapes + 1))],
       true) := by
  unfold Collect
  rw [scrape_ok_cons e resp kd pmrest b0 bs hpm hb]

/-- Unfolding Collect on a successful fetch with no enabled metric. -/
lemma Collect_ok_nil_pm (e : Exporter) (resp : GetCostAndUsageOutput)
    (hpm : e.prometheusMetrics = []) :
    Collect e (.ok resp) =
      ({ e with totalScrapes := e.totalScrapes + 1 },
       [Event.incCounter, Event.fetchAttempt,
        Event.emit (upSample 1), Event.emit (counterSample (e.totalScrapes + 1))],
       true) := by
  unfold Collect
  rw [scrape_ok_nil_pm e resp hpm]
  rfl

/-- costEmits distributes over append. -/
lemma costEmits_append (l1 l2 : List Event) :
    costEmits (l1 ++ l2) = costEmits l1 ++ costEmits l2 :=
  List.filterMap_append ..

/-- costEmits keeps exactly the samples whose descriptor is neither the
up gauge nor the counter. -/
lemma costEmits_map_emit (ms : List Sample)
    (h : ∀ s ∈ ms, ¬(s.desc = awsBillingUp ∨ s.desc = totalScrapesDesc)) :
    costEmits (ms.map Event.emit) = ms := by
  induction ms with
  | nil => rfl
  | cons s rest ih =>
      rw [List.map_cons]
      unfold costEmits
      rw [List.filterMap_cons]
      have hs := h s (List.mem_cons_self s rest)
      simp only [if_neg hs]
      unfold costEmits at ih
      rw [ih (fun x hx => h x (List.mem_cons_of_mem s hx))]

/-- The fixed head of every event list holds no samples. -/
lemma costEmits_head : costEmits [Event.incCounter, Event.fetchAttempt] = [] := rfl

/-- The up gauge and counter emissions hold no cost samples. -/
lemma costEmits_tail (u : Rat) (n : Nat) :
    costEmits [Event.emit (upSample u), Event.emit (counterSample n)] = [] := by
  unfold costEmits
  rw [List.filterMap_cons, List.filterMap_cons]
  simp [upSample, counterSample]

/-- Samples of the nested loops over a catalog selection never use the
up or counter descriptors. -/
lemma matchSamples_desc_ok {pm : List (Int × Desc)} {b0 : ResultByTime}
    (hsub : List.Sublist pm prometheusMetrics) :
    ∀ s ∈ matchSamples pm b0, ¬(s.desc = awsBillingUp ∨ s.desc = totalScrapesDesc) := by
  intro s hs
  rcases mem_matchSamples.mp hs with ⟨kd, hkd, hsi⟩
  have hdesc := desc_of_mem_innerFor hsi
  have hspec := catalog_desc_ne_special kd (hsub.subset hkd)
  rintro (h | h)
  · exact hspec.1 (hdesc ▸ h)
  · exact hspec.2 (hdesc ▸ h)

/-- C2: every invocation of Collect, on success and on failure alike,
increases the totalScrapes counter by exactly one, and the increment
event precedes the fetch attempt in the event order. -/
theorem C2_counter_increment (e : Exporter) (fr : Except String GetCostAndUsageOutput) :
    ((Collect e fr).1).totalScrapes = e.totalScrapes + 1 ∧
    ∃ tail, (Collect e fr).2.1 = Event.incCounter :: Event.fetchAttempt :: tail ∧
      ∀ ev ∈ tail, ∃ s, ev = Event.emit s := by
  cases fr with
  | error err =>
      rw [Collect_error e err]
      refine ⟨rfl, [Event.emit (upSample 0),
        Event.emit (counterSample (e.totalScrapes + 1))], rfl, ?_⟩
      intro ev hev
      rcases List.mem_cons.mp hev with h | h
      · exact ⟨_, h⟩
      · exact ⟨_, List.mem_singleton.mp h⟩
  | ok resp =>
      rcases hpm : e.prometheusMetrics with _ | ⟨kd, pmrest⟩
      · rw [Collect_ok_nil_pm e resp hpm]
        refine ⟨rfl, [Event.emit (upSample 1),
          Event.emit (counterSample (e.totalScrapes + 1))], rfl, ?_⟩
        intro ev hev
        rcases List.mem_cons.mp hev with h | h
        · exact ⟨_, h⟩
        · exact ⟨_, List.mem_singleton.mp h⟩
      · rcases hb : resp.resultsByTime with _ | ⟨b0, bs⟩
        · have hs := scrape_ok_panic e resp kd pmrest hpm hb
          unfold Collect
          rw [hs]
          exact ⟨rfl, [], rfl, fun ev hev => absurd hev (List.not_mem_nil ev)⟩
        · rw [Collect_ok_cons e resp kd pmrest b0 bs hpm hb]
          refine ⟨rfl, (matchSamples (kd :: pmrest) b0).map Event.emit
            ++ [Event.emit (upSample 1),
                Event.emit (counterSample (e.totalScrapes + 1))], rfl, ?_⟩
          intro ev hev
          rcases List.mem_append.mp hev with h | h
          · rcases List.mem_map.mp h with ⟨s, _, rfl⟩
            exact ⟨s, rfl⟩
          · rcases List.mem_cons.mp h with h2 | h2
            · exact ⟨_, h2⟩
            · exact ⟨_, List.mem_singleton.mp h2⟩

/-- Witness for C2 at a concrete exporter and a failing fetch. -/
theorem C2_counter_increment_witness :
    ((Collect { fetchSelected := [], totalScrapes := 0, prometheusMetrics := [] }
        (.error "boom")).1).totalScrapes = 0 + 1 ∧
    ∃ tail, (Collect { fetchSelected := [], totalScrapes := 0, prometheusMetrics := [] }
        (.error "boom")).2.1 = Event.incCounter :: Event.fetchAttempt :: tail ∧
      ∀ ev ∈ tail, ∃ s, ev = Event.emit s :=
  C2_counter_increment { fetchSelected := [], totalScrapes := 0, prometheusMetrics := [] }
    (.error "boom")

/-- C3: when the fetch fails, Collect emits no per-metric cost sample,
emits the up gauge with value 0 and the scrape counter, and returns
normally (the error does not propagate). -/
theorem C3_error_no_cost_samples (e : Exporter) (err : String) :
    costEmits (Collect e (.error err)).2.1 = [] ∧
    Event.emit (upSample 0) ∈ (Collect e (.error err)).2.1 ∧
    Event.emit (counterSample (e.totalScrapes + 1)) ∈ (Collect e (.error err)).2.1 ∧
    (Collect e (.error err)).2.2 = true := by
  rw [Collect_error e err]
  refine ⟨?_, ?_, ?_, rfl⟩
  · simp [costEmits, upSample, counterSample]
  · simp
  · simp

/-- Witness for C3 at a concrete exporter and error. -/
theorem C3_error_no_cost_samples_witness :
    costEmits (Collect { fetchSelected := ["BlendedCost"], totalScrapes := 3, prometheusMetrics := prometheusMetrics } (.error "boom")).2.1 = [] ∧
    Event.emit (upSample 0) ∈ (Collect { fetchSelected := ["BlendedCost"], totalScrapes := 3, prometheusMetrics := prometheusMetrics } (.error "boom")).2.1 ∧
    Event.emit (counterSample (3 + 1)) ∈ (Collect { fetchSelected := ["BlendedCost"], totalScrapes := 3, prometheusMetrics := prometheusMetrics } (.error "boom")).2.1 ∧
    (Collect { fetchSelected := ["BlendedCost"], totalScrapes := 3, prometheusMetrics := prometheusMetrics } (.error "boom")).2.2 = true :=
  C3_error_no_cost_samples { fetchSelected := ["BlendedCost"], totalScrapes := 3, prometheusMetrics := prometheusMetrics } "boom"

/-- C8: every invocation of the fetch closure builds a request with
granularity DAILY and the window from the previous day to the current
day, and returns the single client result unchanged (in particular a
client error is returned unmodified). -/
theorem C8_fetch_window_and_passthrough (ms : List String) (today : Int)
    (client : GetCostAndUsageInput → Except String GetCostAndUsageOutput) :
    (fetchHTTP ms today client).1.granularity = "DAILY" ∧
    (fetchHTTP ms today client).1.timeStart = today - 1 ∧
    (fetchHTTP ms today client).1.timeEnd = today ∧
    (fetchHTTP ms today client).1.metrics = ms ∧
    (fetchHTTP ms today client).2 = client (fetchHTTP ms today client).1 ∧
    ∀ err, client (fetchHTTP ms today client).1 = .error err →
      (fetchHTTP ms today client).2 = .error err := by
  have hinput : (fetchHTTP ms today client).1 =
      (⟨ms, "DAILY", today - 1, today⟩ : GetCostAndUsageInput) := by
    unfold fetchHTTP
    rcases hc : client ⟨ms, "DAILY", today - 1, today⟩ with err | resp <;> simp [hc]
  have hres : (fetchHTTP ms today client).2 = client (fetchHTTP ms today client).1 := by
    rw [hinput]
    unfold fetchHTTP
    rcases hc : client ⟨ms, "DAILY", today - 1, today⟩ with err | resp <;> simp [hc]
  exact ⟨by rw [hinput], by rw [hinput], by rw [hinput], by rw [hinput], hres,
    fun err he => hres.trans he⟩

/-- Witness for C8 with a constant failing client. -/
theorem C8_fetch_window_and_passthrough_witness :
    (fetchHTTP ["BlendedCost"] 100 (fun _ => .error "down")).1.granularity = "DAILY" ∧
    (fetchHTTP ["BlendedCost"] 100 (fun _ => .error "down")).1.timeStart = 100 - 1 ∧
    (fetchHTTP ["BlendedCost"] 100 (fun _ => .error "down")).2 = .error "down" :=
  ⟨(C8_fetch_window_and_passthrough ["BlendedCost"] 100 (fun _ => .error "down")).1,
   (C8_fetch_window_and_passthrough ["BlendedCost"] 100 (fun _ => .error "down")).2.1,
   (C8_fetch_window_and_passthrough ["BlendedCost"] 100
      (fun _ => .error "down")).2.2.2.2.2 "down" rfl⟩

/-- C10: with at least one enabled metric, the success path of scrape
reads the first result bucket unconditionally: an empty bucket list
makes the access out of range (modelled as result none, the Go runtime
panic), and with at least one bucket the scrape returns up 1. -/
theorem C10_empty_bucket_panics (e : Exporter) (resp : GetCostAndUsageOutput)
    (hne : e.prometheusMetrics ≠ []) :
    (resp.resultsByTime = [] → (scrape e (.ok resp)).2.result = none) ∧
    (resp.resultsByTime ≠ [] → (scrape e (.ok resp)).2.result = some 1) := by
  rcases hpm : e.prometheusMetrics with _ | ⟨kd, pmrest⟩
  · exact absurd hpm hne
  · constructor
    · intro hb
      rw [scrape_ok_panic e resp kd pmrest hpm hb]
    · intro hb
      rcases hbs : resp.resultsByTime with _ | ⟨b0, bs⟩
      · exact absurd hbs hb
      · rw [scrape_ok_cons e resp kd pmrest b0 bs hpm hbs]

/-- Witness for C10: the full catalog enabled, a successful response
with no bucket: the scrape panics. -/
theorem C10_empty_bucket_panics_witness :
    (scrape { fetchSelected := [], totalScrapes := 0, prometheusMetrics := prometheusMetrics }
      (.ok { resultsByTime := [] })).2.result = none :=
  (C10_empty_bucket_panics
    { fetchSelected := [], totalScrapes := 0, prometheusMetrics := prometheusMetrics }
    { resultsByTime := [] } (by decide)).1 rfl

/-- A token failing Atoi makes the filterServerMetrics token loop fail. -/
lemma parseTokens_error {toks : List String} {tok : String}
    (htok : tok ∈ toks) (hbad : Atoi tok = none) :
    ∃ msg, parseTokens toks = .error msg := by
  induction toks with
  | nil => cases htok
  | cons f rest ih =>
      rcases List.mem_cons.mp htok with h | h
      · subst h
        exact ⟨"invalid server metric field number: " ++ tok, by simp [parseTokens, hbad]⟩
      · cases hA : Atoi f with
        | none => exact ⟨"invalid server metric field number: " ++ f, by simp [parseTokens, hA]⟩
        | some n =>
            rcases ih h with ⟨msg, hmsg⟩
            exact ⟨msg, by simp [parseTokens, hA, hmsg]⟩

/-- A token failing Atoi makes the NewExporter token loop fail. -/
lemma selectNames_error {toks : List String} {tok : String}
    (htok : tok ∈ toks) (hbad : Atoi tok = none) :
    ∃ msg, selectNames toks = .error msg := by
  induction toks with
  | nil => cases htok
  | cons f rest ih =>
      rcases List.mem_cons.mp htok with h | h
      · subst h
        exact ⟨"invalid server metric field number: " ++ tok, by simp [selectNames, hbad]⟩
      · cases hA : Atoi f with
        | none => exact ⟨"invalid server metric field number: " ++ f, by simp [selectNames, hA]⟩
        | some n =>
            rcases ih h with ⟨msg, hmsg⟩
            exact ⟨msg, by simp [selectNames, hA, hmsg]⟩

/-- When every token parses, the NewExporter loop succeeds with the
AWSMetrics lookup of every parsed id, in token order. -/
lemma parseTokens_ok_selectNames {toks : List String} {sel : List Int}
    (h : parseTokens toks = .ok sel) :
    selectNames toks = .ok (sel.map awsMetricsLookup) := by
  induction toks generalizing sel with
  | nil =>
      simp only [parseTokens, Except.ok.injEq] at h
      subst h
      rfl
  | cons f rest ih =>
      cases hA : Atoi f with
      | none => simp [parseTokens, hA] at h
      | some n =>
          simp only [parseTokens, hA] at h
          cases hR : parseTokens rest with
          | error e => simp [hR] at h
          | ok ns =>
              simp only [hR, Except.ok.injEq] at h
              subst h
              simp [selectNames, hA, ih hR]

/-- A key absent from the key list of an association list has no entry. -/
lemma lookup_eq_none_of_not_mem {α β : Type} [DecidableEq α] (l : List (α × β)) (k : α)
    (h : k ∉ l.map Prod.fst) : l.lookup k = none := by
  induction l with
  | nil => rfl
  | cons p rest ih =>
      obtain ⟨a, b⟩ := p
      simp only [List.map_cons, List.mem_cons, not_or] at h
      have hne : (k == a) = false := beq_eq_false_iff_ne.mpr h.1
      simp [List.lookup, hne, ih h.2]

/-- C5: a filter holding a token that Atoi rejects makes both the
descriptor derivation and the exporter construction return an error, so
no collector value is produced. -/
theorem C5_invalid_token_fails_construction (filter tok : String)
    (htok : tok ∈ tokens filter) (hbad : Atoi tok = none) :
    (∃ msg, filterServerMetrics filter = .error msg) ∧
    (∀ sd, ∃ msg, NewExporter filter sd = .error msg) := by
  have hfne : ¬ filter.length = 0 := by
    intro h
    rw [tokens, if_pos h] at htok
    cases htok
  have htok2 : tok ∈ goSplitComma filter := by
    rw [tokens, if_neg hfne] at htok
    exact htok
  obtain ⟨m1, h1⟩ := parseTokens_error htok2 hbad
  obtain ⟨m2, h2⟩ := selectNames_error htok2 hbad
  constructor
  · exact ⟨m1, by simp only [filterServerMetrics, if_neg hfne, h1]⟩
  · intro sd
    exact ⟨m2, by simp only [NewExporter, if_neg hfne, h2]⟩

/-- Witness for C5 at the filter 2,x with the non-numeric token x. -/
theorem C5_invalid_token_fails_construction_witness :
    (∃ msg, filterServerMetrics "2,x" = .error msg) ∧
    (∀ sd, ∃ msg, NewExporter "2,x" sd = .error msg) :=
  C5_invalid_token_fails_construction "2,x" "x" (by decide) rfl

/-- C7 counterexample: the filter 9 is all-integer but 9 is not a
catalog id; construction nevertheless succeeds (no configuration
error), returning an empty descriptor selection and an exporter whose
fetch list holds the empty name. -/
theorem C7_unknown_id_accepted :
    filterServerMetrics "9" = Except.ok [] ∧
    NewExporter "9" [] = Except.ok { fetchSelected := [""], totalScrapes := 0, prometheusMetrics := [] } :=
  ⟨rfl, rfl⟩

/-- C7 amended: a filter whose tokens all parse as integers is accepted
even when an id is outside the catalog; the unknown id selects no
descriptor in filterServerMetrics (a silent skip) and maps to the empty
string in the NewExporter fetch list. -/
theorem C7_unknown_id_silently_skipped (filter : String) (hne : ¬ filter.length = 0)
    (sel : List Int) (hsel : parseTokens (goSplitComma filter) = .ok sel)
    (sd : List (Int × Desc)) :
    filterServerMetrics filter = .ok (prometheusMetrics.filter (fun p => sel.contains p.1)) ∧
    NewExporter filter sd = .ok { fetchSelected := sel.map awsMetricsLookup, totalScrapes := 0, prometheusMetrics := sd } ∧
    ∀ n ∈ sel, n ∉ AWSMetrics.map Prod.fst →
      (∀ p ∈ prometheusMetrics.filter (fun p => sel.contains p.1), p.1 ≠ n) ∧
      awsMetricsLookup n = "" := by
  refine ⟨?_, ?_, ?_⟩
  · simp only [filterServerMetrics, if_neg hne, hsel]
  · simp only [NewExporter, if_neg hne, parseTokens_ok_selectNames hsel]
  · intro n hn hnotin
    constructor
    · intro p hp heq
      apply hnotin
      rw [← catalog_keys_eq_aws]
      exact List.mem_map.mpr ⟨p, List.mem_of_mem_filter hp, heq⟩
    · unfold awsMetricsLookup
      rw [lookup_eq_none_of_not_mem AWSMetrics n hnotin]
      rfl

/-- Witness for C7 amended at the filter 9. -/
theorem C7_unknown_id_silently_skipped_witness :
    filterServerMetrics "9" = Except.ok (prometheusMetrics.filter (fun p => [(9 : Int)].contains p.1)) ∧
    NewExporter "9" [] = Except.ok { fetchSelected := [(9 : Int)].map awsMetricsLookup, totalScrapes := 0, prometheusMetrics := [] } ∧
    ∀ n ∈ [(9 : Int)], n ∉ AWSMetrics.map Prod.fst →
      (∀ p ∈ prometheusMetrics.filter (fun p => [(9 : Int)].contains p.1), p.1 ≠ n) ∧
      awsMetricsLookup n = "" :=
  C7_unknown_id_silently_skipped "9" (by decide) [9] rfl []

/-- C1 counterexample: the empty filter makes filterServerMetrics
return the empty descriptor selection, not all 7 catalog metrics, so a
collect on the resulting exporter emits zero per-metric samples even
for a successful response holding all 7 dimension names. -/
theorem C1_empty_filter_counterexample :
    filterServerMetrics "" = Except.ok [] ∧
    NewExporter "" [] = Except.ok { fetchSelected := AWSMetrics.map Prod.snd, totalScrapes := 0, prometheusMetrics := [] } ∧
    fullBucket.total.map Prod.fst = AWSMetrics.map Prod.snd ∧
    costEmits (Collect { fetchSelected := AWSMetrics.map Prod.snd, totalScrapes := 0, prometheusMetrics := [] } (.ok { resultsByTime := [fullBucket] })).2.1 = [] := by
  refine ⟨rfl, rfl, rfl, ?_⟩
  rw [Collect_ok_nil_pm _ _ rfl]
  simp [costEmits, upSample, counterSample]

/-- C1 amended: the empty filter enables all 7 AWS dimension names for
the fetch request, each id mapped to its name, but the descriptor
derivation returns the empty selection, so a subsequent successful
collect emits no per-metric sample at all. -/
theorem C1_empty_filter_amended :
    NewExporter "" [] = Except.ok { fetchSelected := AWSMetrics.map Prod.snd, totalScrapes := 0, prometheusMetrics := [] } ∧
    AWSMetrics.map Prod.snd = ["AmortizedCost", "BlendedCost", "NetAmortizedCost", "NetUnblendedCost", "NormalizedUsageAmount", "UnblendedCost", "UsageQuantity"] ∧
    (∀ p ∈ AWSMetrics, awsMetricsLookup p.1 = p.2) ∧
    filterServerMetrics "" = Except.ok [] ∧
    ∀ (fsel : List String) (n0 : Nat) (resp : GetCostAndUsageOutput),
      costEmits (Collect { fetchSelected := fsel, totalScrapes := n0, prometheusMetrics := [] } (.ok resp)).2.1 = [] ∧
      (Collect { fetchSelected := fsel, totalScrapes := n0, prometheusMetrics := [] } (.ok resp)).2.2 = true := by
  refine ⟨rfl, rfl, by decide, rfl, ?_⟩
  intro fsel n0 resp
  rw [Collect_ok_nil_pm _ resp rfl]
  exact ⟨by simp [costEmits, upSample, counterSample], rfl⟩

/-- Witness for C1 amended: the id-to-name mapping at id 1 and the
empty emission at a concrete response. -/
theorem C1_empty_filter_amended_witness :
    awsMetricsLookup 1 = "AmortizedCost" ∧
    costEmits (Collect { fetchSelected := [], totalScrapes := 5, prometheusMetrics := [] } (.ok { resultsByTime := [] })).2.1 = [] :=
  ⟨C1_empty_filter_amended.2.2.1 (1, "AmortizedCost") (by decide),
   (C1_empty_filter_amended.2.2.2.2 [] 5 { resultsByTime := [] }).1⟩

/-- C4: on a successful fetch, every enabled catalog entry whose AWS
dimension name appears in the first bucket with a parsable amount
yields exactly one emitted sample, labelled with the raw dimension name
and the unit and carrying the parsed value; the up gauge with value 1
and the scrape counter are always emitted and the invocation returns
normally. -/
theorem C4_success_unique_sample
    (filter : String) (pm : List (Int × Desc)) (hpm : filterServerMetrics filter = .ok pm)
    (fsel : List String) (n0 : Nat)
    (resp : GetCostAndUsageOutput) (b0 : ResultByTime) (bs : List ResultByTime)
    (hb : resp.resultsByTime = b0 :: bs)
    (hnd : (b0.total.map Prod.fst).Nodup)
    (key : Int) (d : Desc) (hk : (key, d) ∈ pm)
    (item : CostItem) (hitem : (awsMetricsLookup key, item) ∈ b0.total)
    (f : Rat) (hf : parseFloat item.amount = some f) :
    (Collect ⟨fsel, n0, pm⟩ (.ok resp)).2.1.count
        (Event.emit { desc := d, value := f, labelValues := [awsMetricsLookup key, item.unit] }) = 1 ∧
    Event.emit (upSample 1) ∈ (Collect ⟨fsel, n0, pm⟩ (.ok resp)).2.1 ∧
    Event.emit (counterSample (n0 + 1)) ∈ (Collect ⟨fsel, n0, pm⟩ (.ok resp)).2.1 ∧
    (Collect ⟨fsel, n0, pm⟩ (.ok resp)).2.2 = true := by
  rcases hpmc : pm with _ | ⟨kd0, pmrest⟩
  · rw [hpmc] at hk
    cases hk
  · have hcol := Collect_ok_cons ⟨fsel, n0, kd0 :: pmrest⟩ resp kd0 pmrest b0 bs rfl hb
    rw [hcol]
    have hsub : List.Sublist (kd0 :: pmrest) prometheusMetrics :=
      hpmc ▸ filterServerMetrics_sublist hpm
    have hk2 : (key, d) ∈ kd0 :: pmrest := hpmc ▸ hk
    refine ⟨?_, ?_, ?_, rfl⟩
    · rw [List.count_append, List.count_append]
      have h1 : List.count
          (Event.emit { desc := d, value := f, labelValues := [awsMetricsLookup key, item.unit] })
          [Event.incCounter, Event.fetchAttempt] = 0 := by simp
      have h2 : ((matchSamples (kd0 :: pmrest) b0).map Event.emit).count
          (Event.emit { desc := d, value := f, labelValues := [awsMetricsLookup key, item.unit] }) =
          (matchSamples (kd0 :: pmrest) b0).count
            { desc := d, value := f, labelValues := [awsMetricsLookup key, item.unit] } :=
        List.count_map_of_injective _ Event.emit emit_injective _
      have h3 := count_matchSamples_eq_one hsub hnd hk2 hitem hf
      have h4 : List.count
          (Event.emit { desc := d, value := f, labelValues := [awsMetricsLookup key, item.unit] })
          [Event.emit (upSample 1), Event.emit (counterSample (n0 + 1))] = 0 := by
        simp [upSample, counterSample]
      rw [h1, h2, h3, h4]
    · exact List.mem_append.mpr (Or.inr (by simp))
    · exact List.mem_append.mpr (Or.inr (by simp))

/-- Witness for C4: the concrete BlendedCost example of the
specification, with amount 12.34 and unit USD and metric id 2
enabled. -/
theorem C4_success_unique_sample_witness :
    (Collect ⟨["BlendedCost"], 0, [(2, blendedCostDesc)]⟩
        (.ok { resultsByTime := [{ total := [("BlendedCost", { amount := "12.34", unit := "USD" })] }] })).2.1.count
      (Event.emit { desc := blendedCostDesc, value := (617/50 : Rat), labelValues := [awsMetricsLookup 2, "USD"] }) = 1 ∧
    Event.emit (upSample 1) ∈ (Collect ⟨["BlendedCost"], 0, [(2, blendedCostDesc)]⟩
        (.ok { resultsByTime := [{ total := [("BlendedCost", { amount := "12.34", unit := "USD" })] }] })).2.1 ∧
    Event.emit (counterSample (0 + 1)) ∈ (Collect ⟨["BlendedCost"], 0, [(2, blendedCostDesc)]⟩
        (.ok { resultsByTime := [{ total := [("BlendedCost", { amount := "12.34", unit := "USD" })] }] })).2.1 ∧
    (Collect ⟨["BlendedCost"], 0, [(2, blendedCostDesc)]⟩
        (.ok { resultsByTime := [{ total := [("BlendedCost", { amount := "12.34", unit := "USD" })] }] })).2.2 = true :=
  C4_success_unique_sample "2" [(2, blendedCostDesc)] rfl ["BlendedCost"] 0
    { resultsByTime := [{ total := [("BlendedCost", { amount := "12.34", unit := "USD" })] }] }
    { total := [("BlendedCost", { amount := "12.34", unit := "USD" })] } [] rfl (by decide)
    2 blendedCostDesc (by decide) { amount := "12.34", unit := "USD" } (by decide)
    (617/50)
    (by
      have h : parseFloat "12.34" =
          some ((1 : Int) * (((12 : Nat) : Rat) + ((34 : Nat) : Rat) / ((10 : Rat) ^ (2 : Nat)))) := rfl
      rw [h]
      norm_num)

/-- C6: on a successful fetch, an item whose amount does not parse
yields no sample (no emitted cost sample carries its dimension name as
the type label), while matching items with parsable amounts are still
emitted, the up gauge with value 1 and the counter are emitted, and the
invocation returns normally. -/
theorem C6_unparsable_amount_skipped
    (filter : String) (pm : List (Int × Desc)) (hpm : filterServerMetrics filter = .ok pm)
    (fsel : List String) (n0 : Nat)
    (resp : GetCostAndUsageOutput) (b0 : ResultByTime) (bs : List ResultByTime)
    (hb : resp.resultsByTime = b0 :: bs)
    (hnd : (b0.total.map Prod.fst).Nodup)
    (hpmne : pm ≠ [])
    (name : String) (item : CostItem) (hitem : (name, item) ∈ b0.total)
    (hbad : parseFloat item.amount = none) :
    (∀ s ∈ costEmits (Collect ⟨fsel, n0, pm⟩ (.ok resp)).2.1, s.labelValues.head? ≠ some name) ∧
    (∀ key d item2 f2, (key, d) ∈ pm → (awsMetricsLookup key, item2) ∈ b0.total →
        parseFloat item2.amount = some f2 →
        Event.emit { desc := d, value := f2, labelValues := [awsMetricsLookup key, item2.unit] }
          ∈ (Collect ⟨fsel, n0, pm⟩ (.ok resp)).2.1) ∧
    Event.emit (upSample 1) ∈ (Collect ⟨fsel, n0, pm⟩ (.ok resp)).2.1 ∧
    Event.emit (counterSample (n0 + 1)) ∈ (Collect ⟨fsel, n0, pm⟩ (.ok resp)).2.1 ∧
    (Collect ⟨fsel, n0, pm⟩ (.ok resp)).2.2 = true := by
  rcases hpmc : pm with _ | ⟨kd0, pmrest⟩
  · exact absurd hpmc hpmne
  · have hcol := Collect_ok_cons ⟨fsel, n0, kd0 :: pmrest⟩ resp kd0 pmrest b0 bs rfl hb
    rw [hcol]
    have hsub : List.Sublist (kd0 :: pmrest) prometheusMetrics :=
      hpmc ▸ filterServerMetrics_sublist hpm
    have hce : costEmits ([Event.incCounter, Event.fetchAttempt]
        ++ (matchSamples (kd0 :: pmrest) b0).map Event.emit
        ++ [Event.emit (upSample 1), Event.emit (counterSample (n0 + 1))]) =
        matchSamples (kd0 :: pmrest) b0 := by
      rw [costEmits_append, costEmits_append, costEmits_head,
        costEmits_map_emit _ (matchSamples_desc_ok hsub), costEmits_tail]
      simp
    refine ⟨?_, ?_, ?_, ?_, rfl⟩
    · intro s hs heq
      rw [hce] at hs
      rcases mem_matchSamples.mp hs with ⟨kd, hkd, hsi⟩
      rcases mem_innerFor.mp hsi with ⟨kc, hkc, hkey, fv, hpf, rfl⟩
      have hname : kc.1 = name := by
        simpa using heq
      have hkc2 : (name, kc.2) ∈ b0.total := by
        rw [← hname]
        exact hkc
      have : kc.2 = item := nodup_key_eq b0.total hnd hkc2 hitem
      rw [this] at hpf
      rw [hpf] at hbad
      cases hbad
    · intro key d item2 f2 hkd2 hitem2 hpf2
      have hms : ({ desc := d, value := f2, labelValues := [awsMetricsLookup key, item2.unit] } : Sample)
          ∈ matchSamples (kd0 :: pmrest) b0 :=
        mem_matchSamples.mpr ⟨(key, d), hpmc ▸ hkd2,
          mem_innerFor.mpr ⟨(awsMetricsLookup key, item2), hitem2, rfl, f2, hpf2, rfl⟩⟩
      exact List.mem_append.mpr (Or.inl (List.mem_append.mpr (Or.inr
        (List.mem_map.mpr ⟨_, hms, rfl⟩))))
    · exact List.mem_append.mpr (Or.inr (by simp))
    · exact List.mem_append.mpr (Or.inr (by simp))

/-- Witness for C6: ids 1 and 2 enabled, AmortizedCost with an
unparsable amount is skipped while BlendedCost with amount 2.5 is still
emitted. -/
theorem C6_unparsable_amount_skipped_witness :
    (∀ s ∈ costEmits (Collect ⟨["AmortizedCost", "BlendedCost"], 0, [(1, amortizedCostDesc), (2, blendedCostDesc)]⟩
        (.ok { resultsByTime := [{ total := [("AmortizedCost", { amount := "N/A", unit := "USD" }), ("BlendedCost", { amount := "2.5", unit := "USD" })] }] })).2.1,
      s.labelValues.head? ≠ some "AmortizedCost") ∧
    Event.emit { desc := blendedCostDesc, value := (5/2 : Rat), labelValues := [awsMetricsLookup 2, "USD"] }
      ∈ (Collect ⟨["AmortizedCost", "BlendedCost"], 0, [(1, amortizedCostDesc), (2, blendedCostDesc)]⟩
        (.ok { resultsByTime := [{ total := [("AmortizedCost", { amount := "N/A", unit := "USD" }), ("BlendedCost", { amount := "2.5", unit := "USD" })] }] })).2.1 ∧
    (Collect ⟨["AmortizedCost", "BlendedCost"], 0, [(1, amortizedCostDesc), (2, blendedCostDesc)]⟩
        (.ok { resultsByTime := [{ total := [("AmortizedCost", { amount := "N/A", unit := "USD" }), ("BlendedCost", { amount := "2.5", unit := "USD" })] }] })).2.2 = true := by
  have h := C6_unparsable_amount_skipped "1,2" [(1, amortizedCostDesc), (2, blendedCostDesc)] rfl
    ["AmortizedCost", "BlendedCost"] 0
    { resultsByTime := [{ total := [("AmortizedCost", { amount := "N/A", unit := "USD" }), ("BlendedCost", { amount := "2.5", unit := "USD" })] }] }
    { total := [("AmortizedCost", { amount := "N/A", unit := "USD" }), ("BlendedCost", { amount := "2.5", unit := "USD" })] }
    [] rfl (by decide) (by decide)
    "AmortizedCost" { amount := "N/A", unit := "USD" } (by decide) rfl
  refine ⟨h.1, ?_, h.2.2.2.2⟩
  exact h.2.1 2 blendedCostDesc { amount := "2.5", unit := "USD" } (5/2) (by decide) (by decide)
    (by
      have h25 : parseFloat "2.5" =
          some ((1 : Int) * (((2 : Nat) : Rat) + ((5 : Nat) : Rat) / ((10 : Rat) ^ (1 : Nat)))) := rfl
      rw [h25]
      norm_num)
